import Mathlib

/-!
Verification of the NEPSE trading bot core (`src/Integrated.py`,
`src/Integrated_Version7.py`).

The stateful Python class `NepseTrader` is shallowly embedded as a record
`TraderState` holding the per-day price/circuit fields, with each method
becoming a pure function from the state (plus the values the method reads
from its external collaborators: the page's "Pre Close" and "High" fields,
the cancellation flags, the driver call outcomes) to the updated state.
Prices are embedded as exact rationals; `math.floor(x * 10) / 10` becomes
`floor1`.  Every call of `_save_state_to_local_storage` is recorded by
appending the state being persisted to an explicit save log, so persistence
claims can be stated about that log.
-/

namespace Ganesh

/-- One-decimal price rounding used throughout the source:
`math.floor(x * 10) / 10`. -/
def floor1 (x : ℚ) : ℚ := (⌊x * 10⌋ : ℚ) / 10

/-- The per-day mutable fields of `NepseTrader` that the price/circuit engine
reads and writes (`trading_date`, `circuit_limit_price_for_date`,
`regular_session_price_for_date`, `circuit_hit_for_date`, `last_known_high`,
`last_order_at_circuit`) together with the process-lifetime pre-close cache
`pre_close_price`.  `trading_date` is an abstract day identifier. -/
structure TraderState where
  trading_date : Option Nat
  pre_close_price : Option ℚ
  circuit_limit_price_for_date : Option ℚ
  regular_session_price_for_date : Option ℚ
  circuit_hit_for_date : Bool
  last_known_high : Option ℚ
  last_order_at_circuit : Bool
deriving DecidableEq, Repr

/-- `NepseTrader._reset_daily_limits_if_needed`: when the observed date
differs from the stored `trading_date`, set the date and clear the per-day
fields (note: the pre-close cache is not touched), then persist.  The second
component is the list of states saved to storage during the call. -/
def reset_daily_limits_if_needed (today : Nat) (s : TraderState) :
    TraderState × List TraderState :=
  if s.trading_date ≠ some today then
    let s2 : TraderState :=
      { s with trading_date := some today,
               circuit_limit_price_for_date := none,
               regular_session_price_for_date := none,
               circuit_hit_for_date := false,
               last_known_high := none,
               last_order_at_circuit := false }
    (s2, [s2])
  else (s, [])

/-- `NepseTrader.get_pre_close_price`: return the cached value when present;
otherwise read the page's "Pre Close" field (`pagePreClose`, `none` when the
read fails) and cache it on success. -/
def get_pre_close_price (pagePreClose : Option ℚ) (s : TraderState) :
    Option ℚ × TraderState :=
  match s.pre_close_price with
  | some v => (some v, s)
  | none =>
    match pagePreClose with
    | some v => (some v, { s with pre_close_price := some v })
    | none => (none, s)

/-- The candidate price of `fill_price_regular`'s non-circuit branch:
`floor(high * 1.02, 1-decimal)` when the page's "High" field was readable,
the circuit limit price otherwise. -/
def regularCandidate (lim : ℚ) (pageHigh : Option ℚ) : ℚ :=
  match pageHigh with
  | some h => floor1 (h * (102 / 100))
  | none => lim

/-- The part of `NepseTrader.fill_price_regular` that runs once the circuit
limit price `lim` for the day is known (source lines 569-617 of
`Integrated.py`): if the circuit was already hit, use `lim` and report
`at_circuit = true`; otherwise compare the candidate against `lim`, possibly
setting `circuit_hit_for_date`.  `fillOk` models whether the final write of
the price into the form input succeeds (the `try` block at the end); on
failure the function returns `(none, at_circuit)`.  The save log mirrors the
`_save_state_to_local_storage` calls of the source. -/
def fill_price_regular_core (lim : ℚ) (pageHigh : Option ℚ) (fillOk : Bool)
    (s : TraderState) (log : List TraderState) :
    (Option ℚ × Bool) × TraderState × List TraderState :=
  if s.circuit_hit_for_date then
    let s2 : TraderState := { s with regular_session_price_for_date := some lim }
    (((if fillOk then some lim else none), true), s2, log ++ [s2])
  else
    let calculated := regularCandidate lim pageHigh
    if lim ≤ calculated then
      let s1 : TraderState := { s with circuit_hit_for_date := true }
      let s2 : TraderState := { s1 with regular_session_price_for_date := some lim }
      (((if fillOk then some lim else none), true), s2, (log ++ [s1]) ++ [s2])
    else
      let s2 : TraderState := { s with regular_session_price_for_date := some calculated }
      (((if fillOk then some calculated else none), false), s2, (log ++ [s]) ++ [s2])

/-- `NepseTrader.fill_price_regular` (`Integrated.py` lines 552-617,
identical to `Integrated_Version7.py` lines 485-550): run the daily reset,
compute and persist the circuit limit price on first use for the date
(falling out with `(none, false)` when the pre-close price is unavailable),
then price the order via `fill_price_regular_core`.  `pct` is the
`CIRCUIT_LIMIT_PERCENTAGE` configuration value. -/
def fill_price_regular (pct : ℚ) (today : Nat)
    (pagePreClose pageHigh : Option ℚ) (fillOk : Bool) (s0 : TraderState) :
    (Option ℚ × Bool) × TraderState × List TraderState :=
  let r := reset_daily_limits_if_needed today s0
  match r.1.circuit_limit_price_for_date with
  | some lim => fill_price_regular_core lim pageHigh fillOk r.1 r.2
  | none =>
    let g := get_pre_close_price pagePreClose r.1
    match g.1 with
    | none => ((none, false), g.2, r.2)
    | some pc =>
      let lim := floor1 (pc * (1 + pct / 100))
      let s2 : TraderState :=
        { g.2 with circuit_limit_price_for_date := some lim,
                   circuit_hit_for_date := false,
                   last_order_at_circuit := false }
      fill_price_regular_core lim pageHigh fillOk s2 (r.2 ++ [s2])

/-- `LatencyProfiler`'s two nullable marks (`boundary_order_time`,
`server_response_time`), both nanosecond timestamps from `time_ns()`. -/
structure LatencyProfiler where
  boundary_order_time : Option ℤ
  server_response_time : Option ℤ
deriving DecidableEq, Repr

/-- `LatencyProfiler.mark_boundary_click`: store the current time in
nanoseconds. -/
def LatencyProfiler.mark_boundary_click (p : LatencyProfiler) (t : ℤ) :
    LatencyProfiler :=
  { p with boundary_order_time := some t }

/-- `LatencyProfiler.mark_server_response`: store the current time in
nanoseconds. -/
def LatencyProfiler.mark_server_response (p : LatencyProfiler) (t : ℤ) :
    LatencyProfiler :=
  { p with server_response_time := some t }

/-- `LatencyProfiler.record`: when both marks are truthy (Python's
`if self.boundary_order_time and self.server_response_time` treats both
`None` and `0` as falsy), append one line carrying
`(end - start) / 1e6` milliseconds; in every case reset both marks.  The
first component is the latency value appended, `none` when no line was
written. -/
def LatencyProfiler.record (p : LatencyProfiler) : Option ℚ × LatencyProfiler :=
  match p.boundary_order_time, p.server_response_time with
  | some b, some e =>
    if b ≠ 0 ∧ e ≠ 0 then
      (some (((e : ℚ) - (b : ℚ)) / 1000000), ⟨none, none⟩)
    else (none, ⟨none, none⟩)
  | _, _ => (none, ⟨none, none⟩)

theorem reset_same {today : Nat} {s : TraderState}
    (h : s.trading_date = some today) :
    reset_daily_limits_if_needed today s = (s, []) := by
  simp [reset_daily_limits_if_needed, h]

theorem reset_trading_date (today : Nat) (s : TraderState) :
    ((reset_daily_limits_if_needed today s).1).trading_date = some today := by
  unfold reset_daily_limits_if_needed
  by_cases h : s.trading_date = some today <;> simp [h]

theorem core_preserves (lim : ℚ) (pageHigh : Option ℚ) (fillOk : Bool)
    (s : TraderState) (log : List TraderState) :
    ((fill_price_regular_core lim pageHigh fillOk s log).2.1).circuit_limit_price_for_date
        = s.circuit_limit_price_for_date
  ∧ ((fill_price_regular_core lim pageHigh fillOk s log).2.1).trading_date
        = s.trading_date
  ∧ ((fill_price_regular_core lim pageHigh fillOk s log).2.1).pre_close_price
        = s.pre_close_price := by
  unfold fill_price_regular_core
  by_cases h : s.circuit_hit_for_date
  · simp [h]
  · by_cases h2 : lim ≤ regularCandidate lim pageHigh <;> simp [h, h2]

theorem core_log_mono (lim : ℚ) (pageHigh : Option ℚ) (fillOk : Bool)
    (s : TraderState) (log : List TraderState) {t : TraderState}
    (ht : t ∈ log) :
    t ∈ (fill_price_regular_core lim pageHigh fillOk s log).2.2 := by
  unfold fill_price_regular_core
  by_cases h : s.circuit_hit_for_date
  · simp [h, ht]
  · by_cases h2 : lim ≤ regularCandidate lim pageHigh <;> simp [h, h2, ht]

/-- C8: the one-decimal floor used for all price rounding is idempotent, and
its result never exceeds its argument on non-negative inputs. -/
theorem floor1_idempotent_and_le :
    (∀ x : ℚ, floor1 (floor1 x) = floor1 x)
  ∧ (∀ x : ℚ, 0 ≤ x → floor1 x ≤ x) := by
  constructor
  · intro x
    unfold floor1
    rw [show ((⌊x * 10⌋ : ℚ) / 10) * 10 = ((⌊x * 10⌋ : ℚ)) from by ring,
      Int.floor_intCast]
  · intro x _
    unfold floor1
    have h := Int.floor_le (x * 10)
    linarith

/-- Witness for C8 at the concrete input `x = 7/5`. -/
theorem floor1_idempotent_and_le_witness :
    floor1 (floor1 (7 / 5)) = floor1 (7 / 5) ∧ floor1 ((7 : ℚ) / 5) ≤ 7 / 5 :=
  ⟨floor1_idempotent_and_le.1 (7 / 5),
   floor1_idempotent_and_le.2 (7 / 5) (by norm_num)⟩

/-- C7: the daily reset check mutates the state only when the observed date
differs from the stored one (and then clears exactly the per-day fields,
keeping everything else); iterating it `n + 1` times with the same observed
date equals doing it once, and every call after the first returns the state
unchanged with no persistence write. -/
theorem reset_daily_idempotent (today : Nat) (s : TraderState) (n : Nat) :
    ((reset_daily_limits_if_needed today s).1 =
      if s.trading_date = some today then s
      else { s with trading_date := some today,
                    circuit_limit_price_for_date := none,
                    regular_session_price_for_date := none,
                    circuit_hit_for_date := false,
                    last_known_high := none,
                    last_order_at_circuit := false })
  ∧ (fun t => (reset_daily_limits_if_needed today t).1)^[n + 1] s
      = (reset_daily_limits_if_needed today s).1
  ∧ reset_daily_limits_if_needed today ((reset_daily_limits_if_needed today s).1)
      = ((reset_daily_limits_if_needed today s).1, []) := by
  have hfix : ∀ u : TraderState,
      reset_daily_limits_if_needed today ((reset_daily_limits_if_needed today u).1)
        = ((reset_daily_limits_if_needed today u).1, []) := by
    intro u
    exact reset_same (reset_trading_date today u)
  refine ⟨?_, ?_, hfix s⟩
  · unfold reset_daily_limits_if_needed
    by_cases h : s.trading_date = some today <;> simp [h]
  · rw [Function.iterate_succ_apply]
    exact Function.iterate_fixed (congrArg Prod.fst (hfix s)) n

/-- C9: flushing the latency profiler with at most one mark set appends
nothing; every flush resets both marks; with both marks set (to positive
nanosecond timestamps, as `time_ns()` produces) exactly the value
`(end - start) / 1e6` milliseconds is appended. -/
theorem latency_record_spec :
    (∀ p : LatencyProfiler,
        p.boundary_order_time = none ∨ p.server_response_time = none →
        p.record = (none, ⟨none, none⟩))
  ∧ (∀ p : LatencyProfiler, (p.record).2 = ⟨none, none⟩)
  ∧ (∀ (p : LatencyProfiler) (b e : ℤ), 0 < b → 0 < e →
        ((p.mark_boundary_click b).mark_server_response e).record
            = (some (((e : ℚ) - (b : ℚ)) / 1000000), ⟨none, none⟩)) := by
  refine ⟨?_, ?_, ?_⟩
  · rintro ⟨ob, oe⟩ h
    cases ob <;> cases oe <;> simp [LatencyProfiler.record] <;> simp at h
  · rintro ⟨ob, oe⟩
    cases ob <;> cases oe <;> simp [LatencyProfiler.record] <;>
      split <;> simp
  · intro p b e hb he
    simp [LatencyProfiler.record, LatencyProfiler.mark_boundary_click,
      LatencyProfiler.mark_server_response, ne_of_gt hb, ne_of_gt he]

/-- Witness for C9: a flush with only the server mark set appends nothing,
and a flush after both marks (5 ns, then 7 ns) appends `(7 - 5)/1e6` ms. -/
theorem latency_record_spec_witness :
    (LatencyProfiler.record ⟨none, some 5⟩ = (none, ⟨none, none⟩))
  ∧ ((((⟨none, none⟩ : LatencyProfiler).mark_boundary_click 5).mark_server_response 7).record
        = (some (((7 : ℚ) - (5 : ℚ)) / 1000000), ⟨none, none⟩)) :=
  ⟨latency_record_spec.1 ⟨none, some 5⟩ (Or.inl rfl),
   latency_record_spec.2.2 ⟨none, none⟩ 5 7 (by norm_num) (by norm_num)⟩

theorem fill_price_regular_limit_known (pct : ℚ) (today : Nat)
    (pagePreClose pageHigh : Option ℚ) (fillOk : Bool) (s : TraderState) (L : ℚ)
    (hd : s.trading_date = some today)
    (hl : s.circuit_limit_price_for_date = some L) :
    fill_price_regular pct today pagePreClose pageHigh fillOk s
      = fill_price_regular_core L pageHigh fillOk s [] := by
  unfold fill_price_regular
  rw [reset_same hd]
  simp only [hl]

/-- C1: with the day's circuit flag still clear and the circuit limit `L`
known, the continuous-session computation uses
`candidate = floor(high * 1.02, 1-decimal)` when the high is readable and
`L` when it is not; when `candidate >= L` it uses `L`, sets the circuit flag
and reports `atCircuit = true`, otherwise it uses the candidate and reports
`atCircuit = false`. -/
theorem fill_price_regular_no_circuit (pct : ℚ) (today : Nat)
    (pagePreClose pageHigh : Option ℚ) (fillOk : Bool) (s : TraderState) (L : ℚ)
    (hd : s.trading_date = some today)
    (hl : s.circuit_limit_price_for_date = some L)
    (hh : s.circuit_hit_for_date = false) :
    (L ≤ regularCandidate L pageHigh →
        (fill_price_regular pct today pagePreClose pageHigh fillOk s).1
            = ((if fillOk then some L else none), true)
        ∧ ((fill_price_regular pct today pagePreClose pageHigh fillOk s).2.1).circuit_hit_for_date
            = true)
  ∧ (regularCandidate L pageHigh < L →
        (fill_price_regular pct today pagePreClose pageHigh fillOk s).1
            = ((if fillOk then some (regularCandidate L pageHigh) else none), false)
        ∧ ((fill_price_regular pct today pagePreClose pageHigh fillOk s).2.1).circuit_hit_for_date
            = false) := by
  have key := fill_price_regular_limit_known pct today pagePreClose pageHigh fillOk s L hd hl
  constructor
  · intro hle
    rw [key]
    unfold fill_price_regular_core
    simp [hh, hle]
  · intro hlt
    rw [key]
    unfold fill_price_regular_core
    simp [hh, not_le.mpr hlt]

/-- Witness for C1: circuit limit 110, high 108 readable, so the candidate
`floor(108 * 1.02, 1) = 110.1` reaches the limit and the limit price is
used with `atCircuit = true`. -/
theorem fill_price_regular_no_circuit_witness :
    (fill_price_regular 10 0 none (some 108) true
        ⟨some 0, some 100, some 110, none, false, none, false⟩).1
      = (some 110, true)
  ∧ ((fill_price_regular 10 0 none (some 108) true
        ⟨some 0, some 100, some 110, none, false, none, false⟩).2.1).circuit_hit_for_date
      = true :=
  (fill_price_regular_no_circuit 10 0 none (some 108) true
      ⟨some 0, some 100, some 110, none, false, none, false⟩ 110 rfl rfl rfl).1
    (by norm_num [regularCandidate, floor1])

/-- C2: once the circuit flag is set for the current date, a further
continuous-session computation on the same date keeps the flag set, uses the
circuit limit price verbatim as the submit price, and reports
`atCircuit = true`; the same-date daily reset also leaves the state
untouched, so the flag never reverts except on date rollover. -/
theorem circuit_reached_sticky (pct : ℚ) (today : Nat)
    (pagePreClose pageHigh : Option ℚ) (fillOk : Bool) (s : TraderState) (L : ℚ)
    (hd : s.trading_date = some today)
    (hh : s.circuit_hit_for_date = true)
    (hl : s.circuit_limit_price_for_date = some L) :
    reset_daily_limits_if_needed today s = (s, [])
  ∧ (fill_price_regular pct today pagePreClose pageHigh fillOk s).1
      = ((if fillOk then some L else none), true)
  ∧ ((fill_price_regular pct today pagePreClose pageHigh fillOk s).2.1).circuit_hit_for_date
      = true
  ∧ ((fill_price_regular pct today pagePreClose pageHigh fillOk s).2.1).regular_session_price_for_date
      = some L
  ∧ ((fill_price_regular pct today pagePreClose pageHigh fillOk s).2.1).circuit_limit_price_for_date
      = some L
  ∧ ((fill_price_regular pct today pagePreClose pageHigh fillOk s).2.1).trading_date
      = some today := by
  have key := fill_price_regular_limit_known pct today pagePreClose pageHigh fillOk s L hd hl
  rw [key]
  unfold fill_price_regular_core
  simp [hh, hd, hl, reset_same hd]

/-- Witness for C2 at a concrete already-at-circuit state with limit 110. -/
theorem circuit_reached_sticky_witness :
    (fill_price_regular 10 0 none (some 95) true
        ⟨some 0, some 100, some 110, none, true, none, true⟩).1
      = (some 110, true)
  ∧ ((fill_price_regular 10 0 none (some 95) true
        ⟨some 0, some 100, some 110, none, true, none, true⟩).2.1).circuit_hit_for_date
      = true :=
  ⟨(circuit_reached_sticky 10 0 none (some 95) true
      ⟨some 0, some 100, some 110, none, true, none, true⟩ 110 rfl rfl rfl).2.1,
   (circuit_reached_sticky 10 0 none (some 95) true
      ⟨some 0, some 100, some 110, none, true, none, true⟩ 110 rfl rfl rfl).2.2.1⟩

theorem fill_price_regular_first_use (pct : ℚ) (today : Nat)
    (pagePreClose pageHigh : Option ℚ) (fillOk : Bool) (s : TraderState) (pc : ℚ)
    (hl : ((reset_daily_limits_if_needed today s).1).circuit_limit_price_for_date
            = none)
    (hp : (get_pre_close_price pagePreClose
            ((reset_daily_limits_if_needed today s).1)).1 = some pc) :
    ((fill_price_regular pct today pagePreClose pageHigh fillOk s).2.1).circuit_limit_price_for_date
        = some (floor1 (pc * (1 + pct / 100)))
  ∧ ∃ t ∈ (fill_price_regular pct today pagePreClose pageHigh fillOk s).2.2,
        t.circuit_limit_price_for_date = some (floor1 (pc * (1 + pct / 100)))
        ∧ t.circuit_hit_for_date = false := by
  simp only [fill_price_regular, hl, hp]
  constructor
  · rw [(core_preserves _ _ _ _ _).1]
  · exact ⟨_, core_log_mono _ _ _ _ _ (List.mem_append_right _ (List.mem_singleton.mpr rfl)),
      rfl, rfl⟩

/-- C3: on the first continuous-session computation of a date (circuit limit
not yet set) with the pre-close price `pc` available, the circuit limit is
computed as `floor(pc * (1 + pct/100), 1-decimal)`, stored with the circuit
flag reset to false, and persisted (a saved snapshot carries the new limit
and a clear flag); with pre-close 100.0 and circuit 10% the limit is
110.0. -/
theorem circuit_limit_first_computation (pct : ℚ) (today : Nat)
    (pagePreClose pageHigh : Option ℚ) (fillOk : Bool) (s : TraderState) (pc : ℚ)
    (hd : s.trading_date = some today)
    (hl : s.circuit_limit_price_for_date = none)
    (hp : s.pre_close_price = some pc) :
    ((fill_price_regular pct today pagePreClose pageHigh fillOk s).2.1).circuit_limit_price_for_date
        = some (floor1 (pc * (1 + pct / 100)))
  ∧ (∃ t ∈ (fill_price_regular pct today pagePreClose pageHigh fillOk s).2.2,
        t.circuit_limit_price_for_date = some (floor1 (pc * (1 + pct / 100)))
        ∧ t.circuit_hit_for_date = false)
  ∧ floor1 ((100 : ℚ) * (1 + (10 : ℚ) / 100)) = 110 := by
  have hr := reset_same hd
  have h1 : ((reset_daily_limits_if_needed today s).1).circuit_limit_price_for_date
      = none := by
    rw [hr]
    exact hl
  have h2 : (get_pre_close_price pagePreClose
      ((reset_daily_limits_if_needed today s).1)).1 = some pc := by
    rw [hr]
    simp [get_pre_close_price, hp]
  obtain ⟨a, b⟩ :=
    fill_price_regular_first_use pct today pagePreClose pageHigh fillOk s pc h1 h2
  exact ⟨a, b, by norm_num [floor1]⟩

/-- Witness for C3: pre-close 100 cached, circuit 10%, limit not yet set. -/
theorem circuit_limit_first_computation_witness :
    ((fill_price_regular 10 0 none (some 95) true
        ⟨some 0, some 100, none, none, false, none, false⟩).2.1).circuit_limit_price_for_date
      = some (floor1 ((100 : ℚ) * (1 + (10 : ℚ) / 100))) :=
  (circuit_limit_first_computation 10 0 none (some 95) true
      ⟨some 0, some 100, none, none, false, none, false⟩ 100 rfl rfl rfl).1

/-- C10: a successfully read pre-close price is cached for the life of the
process (later calls return the cached value with no page read and no state
change), the daily reset does not clear the cache, and a circuit limit
computed after a date rollover in the same process is computed from the
previous day's cached pre-close price, whatever the page now shows. -/
theorem pre_close_cache_lifetime :
    (∀ (page : Option ℚ) (s : TraderState) (v : ℚ),
        s.pre_close_price = some v → get_pre_close_price page s = (some v, s))
  ∧ (∀ (today : Nat) (s : TraderState),
        ((reset_daily_limits_if_needed today s).1).pre_close_price
            = s.pre_close_price)
  ∧ (∀ (pct : ℚ) (today d : Nat) (pagePreClose pageHigh : Option ℚ)
        (fillOk : Bool) (s : TraderState) (v : ℚ),
        s.pre_close_price = some v → s.trading_date = some d → d ≠ today →
        ((fill_price_regular pct today pagePreClose pageHigh fillOk s).2.1).circuit_limit_price_for_date
            = some (floor1 (v * (1 + pct / 100)))) := by
  have hreset : ∀ (today : Nat) (s : TraderState),
      ((reset_daily_limits_if_needed today s).1).pre_close_price
        = s.pre_close_price := by
    intro today s
    unfold reset_daily_limits_if_needed
    by_cases h : s.trading_date = some today <;> simp [h]
  refine ⟨?_, hreset, ?_⟩
  · intro page s v hv
    simp [get_pre_close_price, hv]
  · intro pct today d pagePreClose pageHigh fillOk s v hv hsd hne
    have hmt : ¬ s.trading_date = some today := by
      rw [hsd]
      intro hc
      exact hne (Option.some_injective _ hc)
    have h1 : ((reset_daily_limits_if_needed today s).1).circuit_limit_price_for_date
        = none := by
      unfold reset_daily_limits_if_needed
      simp [hmt]
    have h2 : (get_pre_close_price pagePreClose
        ((reset_daily_limits_if_needed today s).1)).1 = some v := by
      have hpre : ((reset_daily_limits_if_needed today s).1).pre_close_price
          = some v := by
        rw [hreset today s, hv]
      simp only [get_pre_close_price, hpre]
    exact (fill_price_regular_first_use pct today pagePreClose pageHigh fillOk s v h1 h2).1

/-- Witness for C10: the process cached pre-close 100 on day 0; after
rollover to day 1 the page shows 50 yet the new circuit limit is computed
from the cached 100. -/
theorem pre_close_cache_lifetime_witness :
    ((fill_price_regular 10 1 (some 50) (some 95) true
        ⟨some 0, some 100, some 110, some 99, true, some 42, true⟩).2.1).circuit_limit_price_for_date
      = some (floor1 ((100 : ℚ) * (1 + (10 : ℚ) / 100))) :=
  pre_close_cache_lifetime.2.2 10 1 0 (some 50) (some 95) true
    ⟨some 0, some 100, some 110, some 99, true, some 42, true⟩ 100 rfl rfl
    (by decide)

/-- One iteration of `rapid_click_buy_button`'s loop over the precomputed
click schedule, as observed from the outside: either one of the cancellation
flags (`refresh_requested`, `stop_clicking`, `not active`) was seen set at
the iteration's flag checks, or the driver raised while locating/clicking
the button (stale element / not found / other, all treated as transient), or
a click went through and the success predicate (the success-message XPath
poll) matched or not. -/
inductive ClickStep
  | cancelled
  | clickFailed
  | clicked (success : Bool)
deriving DecidableEq, Repr

/-- The click-schedule loop of `NepseTrader.rapid_click_buy_button`
(`Integrated.py` lines 657-703): walk the schedule carrying the click count;
stop with `(count, false)` on a cancellation flag or schedule exhaustion;
skip failed clicks; after a successful click increment the count and return
`(count, true)` immediately when the success predicate matched.
`order_success` and `stop_clicking` are cleared on entry and set only on the
success return, so within one invocation they never stop the loop early. -/
def rapid_click_loop : List ClickStep → Nat → Nat × Bool
  | [], n => (n, false)
  | ClickStep.cancelled :: _, n => (n, false)
  | ClickStep.clickFailed :: rest, n => rapid_click_loop rest n
  | ClickStep.clicked sd :: rest, n =>
      if sd then (n + 1, true) else rapid_click_loop rest (n + 1)

/-- `NepseTrader.rapid_click_buy_button`: run the schedule loop from a zero
click count. -/
def rapid_click_buy_button (steps : List ClickStep) : Nat × Bool :=
  rapid_click_loop steps 0

/-- Number of schedule iterations on which a click actually fired. -/
def countClicked : List ClickStep → Nat
  | [] => 0
  | ClickStep.clicked _ :: rest => countClicked rest + 1
  | _ :: rest => countClicked rest

theorem rapid_click_loop_first_success (rest : List ClickStep) :
    ∀ (pre : List ClickStep) (n : Nat), ClickStep.cancelled ∉ pre →
      ClickStep.clicked true ∉ pre →
      rapid_click_loop (pre ++ ClickStep.clicked true :: rest) n
        = (n + countClicked pre + 1, true) := by
  intro pre
  induction pre with
  | nil =>
    intro n _ _
    simp [rapid_click_loop, countClicked]
  | cons a tl ih =>
    intro n hnc hns
    have hnc2 : ClickStep.cancelled ∉ tl := fun h => hnc (List.mem_cons_of_mem a h)
    have hns2 : ClickStep.clicked true ∉ tl := fun h => hns (List.mem_cons_of_mem a h)
    cases a with
    | cancelled => exact absurd (List.mem_cons_self _ _) hnc
    | clickFailed =>
      simpa [rapid_click_loop, countClicked] using ih n hnc2 hns2
    | clicked sd =>
      cases sd with
      | true => exact absurd (List.mem_cons_self _ _) hns
      | false =>
        have h2 := ih (n + 1) hnc2 hns2
        simp only [List.cons_append, rapid_click_loop, if_neg Bool.false_ne_true,
          countClicked, List.append_eq] at h2 ⊢
        rw [h2]
        simp only [Prod.mk.injEq]
        exact ⟨by omega, trivial⟩

theorem rapid_click_loop_success_mem :
    ∀ (steps : List ClickStep) (n : Nat),
      (rapid_click_loop steps n).2 = true → ClickStep.clicked true ∈ steps := by
  intro steps
  induction steps with
  | nil =>
    intro n h
    simp [rapid_click_loop] at h
  | cons a tl ih =>
    intro n h
    cases a with
    | cancelled => simp [rapid_click_loop] at h
    | clickFailed => exact List.mem_cons_of_mem _ (ih n h)
    | clicked sd =>
      cases sd with
      | true => exact List.mem_cons_self _ _
      | false =>
        simp only [rapid_click_loop, if_neg Bool.false_ne_true] at h
        exact List.mem_cons_of_mem _ (ih (n + 1) h)

/-- Progress of one of the four `click_forever` worker threads of the
threaded `rapid_click_buy_button` (`Integrated.py` lines 1560-1608):
at the `while not order_success and not stop_clicking` check, past the check
and about to locate/click the button, or returned. -/
inductive ThreadPhase
  | atCheck
  | atClick
  | done
deriving DecidableEq, Repr

/-- The state shared by the four worker threads: the `nonlocal click_count`
and the `order_success` / `stop_clicking` events (cleared on entry). -/
structure ClickSharedState where
  click_count : Nat
  order_success : Bool
  stop_clicking : Bool
deriving DecidableEq, Repr

/-- Shared state plus per-thread phases of the threaded
`rapid_click_buy_button`. -/
structure ThreadedClickState where
  shared : ClickSharedState
  phases : List ThreadPhase
deriving DecidableEq, Repr

/-- One atomic segment of a worker thread's body, chosen by the interleaving
schedule: `e.1` is the thread index, `e.2` tells whether locating/clicking
the button succeeded (a raise is caught, the thread sleeps and loops back to
the `while` check without counting a click).  At the check, a set flag makes
the thread return; past the check, a counted click polls the success
predicate `pred` of the overall attempt number — on a match the thread sets
`order_success` and `stop_clicking` and returns, otherwise it loops back to
the check.  (The GPU warm-up, the inter-click sleep and the best-effort
dialog dismissal of the source carry no loop state and are omitted.) -/
def thread_step (pred : Nat → Bool) (st : ThreadedClickState) (e : Nat × Bool) :
    ThreadedClickState :=
  match st.phases[e.1]? with
  | none => st
  | some ThreadPhase.done => st
  | some ThreadPhase.atCheck =>
    if st.shared.order_success || st.shared.stop_clicking then
      { st with phases := st.phases.set e.1 ThreadPhase.done }
    else
      { st with phases := st.phases.set e.1 ThreadPhase.atClick }
  | some ThreadPhase.atClick =>
    if e.2 then
      let n := st.shared.click_count + 1
      if pred n then
        { shared := { click_count := n, order_success := true, stop_clicking := true },
          phases := st.phases.set e.1 ThreadPhase.done }
      else
        { shared := { st.shared with click_count := n },
          phases := st.phases.set e.1 ThreadPhase.atCheck }
    else
      { st with phases := st.phases.set e.1 ThreadPhase.atCheck }

/-- Run the four worker threads under a given interleaving schedule. -/
def run_threads (pred : Nat → Bool) :
    List (Nat × Bool) → ThreadedClickState → ThreadedClickState
  | [], st => st
  | e :: rest, st => run_threads pred rest (thread_step pred st e)

/-- Entry state of the threaded `rapid_click_buy_button`: `click_count = 0`,
both events cleared, four threads at their loop checks. -/
def initThreads : ThreadedClickState :=
  ⟨⟨0, false, false⟩,
   [ThreadPhase.atCheck, ThreadPhase.atCheck, ThreadPhase.atCheck,
    ThreadPhase.atCheck]⟩

/-- Final state of a threaded invocation under schedule `sched`. -/
def rapid_click_threaded_run (pred : Nat → Bool) (sched : List (Nat × Bool)) :
    ThreadedClickState :=
  run_threads pred sched initThreads

/-- Return value of the threaded `rapid_click_buy_button` after the joins:
`(click_count, order_success.is_set())`. -/
def rapid_click_threaded (pred : Nat → Bool) (sched : List (Nat × Bool)) :
    Nat × Bool :=
  ((rapid_click_threaded_run pred sched).shared.click_count,
   (rapid_click_threaded_run pred sched).shared.order_success)

/-- Whether every worker thread has returned, i.e. the `join` calls have all
completed. -/
def allDone (st : ThreadedClickState) : Bool :=
  st.phases.all (fun p => decide (p = ThreadPhase.done))

/-- A success predicate that first matches on the very first attempt and
stays true (the order is placed and its success message stays up). -/
def clickPredFromOne : Nat → Bool := fun n => decide (1 ≤ n)

/-- Interleaving of the four threads in which threads 0 and 1 both pass
their loop checks before thread 0 clicks. -/
def cexSchedule : List (Nat × Bool) :=
  [(0, true), (1, true), (0, true), (1, true), (2, true), (3, true)]

theorem thread_step_success_mono (pred : Nat → Bool) (st : ThreadedClickState)
    (e : Nat × Bool) (h : st.shared.order_success = true) :
    (thread_step pred st e).shared.order_success = true := by
  unfold thread_step
  rcases hp : st.phases[e.1]? with _ | ph
  · simpa using h
  · cases ph with
    | atCheck => simp [h]
    | done => simpa using h
    | atClick =>
      by_cases hok : e.2 = true
      · by_cases hpr : pred (st.shared.click_count + 1) = true
        · simp [hok, hpr]
        · simp [hok, hpr, h]
      · simp [hok, h]

theorem run_threads_success_mono (pred : Nat → Bool) (sched : List (Nat × Bool)) :
    ∀ st : ThreadedClickState, st.shared.order_success = true →
      (run_threads pred sched st).shared.order_success = true := by
  induction sched with
  | nil => intro st h; exact h
  | cons e rest ih =>
    intro st h
    exact ih (thread_step pred st e) (thread_step_success_mono pred st e h)

theorem thread_step_success_source (pred : Nat → Bool) (st : ThreadedClickState)
    (e : Nat × Bool)
    (h : (thread_step pred st e).shared.order_success = true) :
    st.shared.order_success = true ∨ ∃ n, pred n = true := by
  unfold thread_step at h
  rcases hp : st.phases[e.1]? with _ | ph
  · rw [hp] at h
    exact Or.inl h
  · rw [hp] at h
    cases ph with
    | atCheck =>
      by_cases hf : (st.shared.order_success || st.shared.stop_clicking) = true
      · exact Or.inl (by simpa [hf] using h)
      · simp only [hf] at h
        simp at h
        exact Or.inl h
    | done => exact Or.inl h
    | atClick =>
      by_cases hok : e.2 = true
      · by_cases hpr : pred (st.shared.click_count + 1) = true
        · exact Or.inr ⟨st.shared.click_count + 1, hpr⟩
        · simp only [hok, hpr] at h
          simp at h
          exact Or.inl h
      · simp only [hok] at h
        simp at h
        exact Or.inl h

theorem run_threads_success_source (pred : Nat → Bool) (sched : List (Nat × Bool)) :
    ∀ st : ThreadedClickState,
      (run_threads pred sched st).shared.order_success = true →
      st.shared.order_success = true ∨ ∃ n, pred n = true := by
  induction sched with
  | nil => intro st h; exact Or.inl h
  | cons e rest ih =>
    intro st h
    rcases ih (thread_step pred st e) h with h1 | h2
    · exact thread_step_success_source pred st e h1
    · exact Or.inr h2

/-- C4 counterexample: in the threaded `rapid_click_buy_button`
(`Integrated.py` lines 1560-1608) with a success predicate that first
matches on the 1st attempt, the interleaving in which threads 0 and 1 are
both past their loop checks when thread 0's click succeeds ends with all
four threads joined and the invocation returning `(2, true)`: a 2nd attempt
fired after the predicate matched and the reported attempt count exceeds
k = 1, contradicting the claim for this cited implementation. -/
theorem rapid_click_threaded_counterexample :
    clickPredFromOne 1 = true
  ∧ allDone (rapid_click_threaded_run clickPredFromOne cexSchedule) = true
  ∧ rapid_click_threaded clickPredFromOne cexSchedule = (2, true) := by
  decide

/-- C4 (amended): at most one success is ever reported per invocation.  For
the paced schedule loop (`Integrated.py` lines 619-703): success is
reported only when some attempt's predicate matched, and when the predicate
first matches on the k-th attempt the loop stops immediately and returns
`(k, true)`, the result being independent of the remaining schedule, so no
(k+1)-th attempt fires.  For the 4-thread variant (lines 1560-1608): the
success flag, once set, stays set for the rest of the run; any thread that
reaches its loop check after success exits without clicking; and success is
reported only when some attempt's predicate matched — but a worker already
past its flag check may still fire one more click, so the returned count can
exceed k. -/
theorem rapid_click_dispatch_guarantees (pre rest : List ClickStep)
    (pred : Nat → Bool) (sched : List (Nat × Bool)) (st : ThreadedClickState)
    (tid : Nat) (clickOk : Bool)
    (hnc : ClickStep.cancelled ∉ pre)
    (hns : ClickStep.clicked true ∉ pre) :
    rapid_click_buy_button (pre ++ ClickStep.clicked true :: rest)
        = (countClicked pre + 1, true)
  ∧ (∀ rest2 : List ClickStep,
        rapid_click_buy_button (pre ++ ClickStep.clicked true :: rest)
          = rapid_click_buy_button (pre ++ ClickStep.clicked true :: rest2))
  ∧ (∀ steps : List ClickStep, (rapid_click_buy_button steps).2 = true →
        ClickStep.clicked true ∈ steps)
  ∧ (st.shared.order_success = true →
        (run_threads pred sched st).shared.order_success = true)
  ∧ (st.shared.order_success = true →
        st.phases[tid]? = some ThreadPhase.atCheck →
        thread_step pred st (tid, clickOk)
          = { st with phases := st.phases.set tid ThreadPhase.done })
  ∧ ((run_threads pred sched st).shared.order_success = true →
        st.shared.order_success = true ∨ ∃ n, pred n = true) := by
  have hmain : ∀ r : List ClickStep,
      rapid_click_buy_button (pre ++ ClickStep.clicked true :: r)
        = (countClicked pre + 1, true) := by
    intro r
    have := rapid_click_loop_first_success r pre 0 hnc hns
    simpa [rapid_click_buy_button] using this
  refine ⟨hmain rest, fun rest2 => (hmain rest).trans (hmain rest2).symm,
    fun steps h => rapid_click_loop_success_mem steps 0 h,
    run_threads_success_mono pred sched st, ?_,
    run_threads_success_source pred sched st⟩
  intro hs hp
  unfold thread_step
  simp [hp, hs]

/-- Witness for C4 (amended), exercising the paced-loop conjunct: one
transient failure, one unsuccessful click, then the predicate matches on the
second click and the loop returns `(2, true)` ignoring the rest. -/
theorem rapid_click_dispatch_guarantees_witness :
    rapid_click_buy_button
        ([ClickStep.clickFailed, ClickStep.clicked false]
          ++ ClickStep.clicked true :: [ClickStep.clicked true])
      = (countClicked [ClickStep.clickFailed, ClickStep.clicked false] + 1, true) :=
  (rapid_click_dispatch_guarantees [ClickStep.clickFailed, ClickStep.clicked false]
      [ClickStep.clicked true] clickPredFromOne cexSchedule initThreads 0 true
      (by decide) (by decide)).1

/-- Outcome of the fine-grained boundary-crossing loop of
`_schedule_boundary_order` (`while datetime.now() < boundary_time`): either
one of its per-iteration checks (`refresh_requested`, `not active`,
`delta <= 0`) made it return, or it fell through with the boundary
crossed. -/
inductive FineWaitOutcome
  | cancelled
  | crossed
deriving DecidableEq, Repr

/-- The externally observed step results of one run of
`NepseTrader._schedule_boundary_order` (`Integrated.py` lines 889-933):
the value of `self.active` checked right after the coarse `_wait_until`,
the outcomes of `check_session_validity` and `prepare_order_form`, the
result of `fill_price_fn` (price, `none` on failure, and the `at_circuit`
flag), the fine-wait outcome, and whether the dispatch loop (when invoked)
succeeded. -/
structure BoundaryEnv where
  activeAfterCoarseWait : Bool
  sessionOk : Bool
  formOk : Bool
  fillPrice : Option ℚ
  fillAtCircuit : Bool
  fineWait : FineWaitOutcome
  dispatchSuccess : Bool
deriving DecidableEq, Repr

/-- Result of a `_schedule_boundary_order` run: the abort paths return with
no order fired (an empty outcome); `fired` records that
`rapid_click_buy_button` was invoked, together with the price and
`at_circuit` values that get logged. -/
inductive BoundaryResult
  | abortedInactive
  | abortedSession
  | abortedForm
  | abortedFineWait
  | fired (price : Option ℚ) (atCircuit : Bool) (success : Bool)
deriving DecidableEq, Repr

/-- `NepseTrader._schedule_boundary_order`: coarse wait, abort if no longer
active; refresh and abort if the session is invalid; abort if the order form
cannot be prepared; fill the price (the result is NOT checked); fine-wait to
the boundary, aborting on a cancellation check; then fire the dispatch
loop. -/
def schedule_boundary_order (env : BoundaryEnv) : BoundaryResult :=
  if env.activeAfterCoarseWait = false then BoundaryResult.abortedInactive
  else if env.sessionOk = false then BoundaryResult.abortedSession
  else if env.formOk = false then BoundaryResult.abortedForm
  else
    match env.fineWait with
    | FineWaitOutcome.cancelled => BoundaryResult.abortedFineWait
    | FineWaitOutcome.crossed =>
        BoundaryResult.fired env.fillPrice env.fillAtCircuit env.dispatchSuccess

/-- Whether the run invoked the dispatch loop. -/
def firesDispatch (env : BoundaryEnv) : Bool :=
  match schedule_boundary_order env with
  | BoundaryResult.fired _ _ _ => true
  | _ => false

/-- C5 counterexample: with the session valid and the form prepared but the
price fill FAILED (`fill_price_fn` returned no price), the scheduler still
fires the dispatch loop once the boundary is crossed — contradicting the
claim that a failed price fill aborts without firing. -/
theorem schedule_boundary_fires_on_failed_fill :
    firesDispatch
        { activeAfterCoarseWait := true, sessionOk := true, formOk := true,
          fillPrice := none, fillAtCircuit := false,
          fineWait := FineWaitOutcome.crossed, dispatchSuccess := false }
      = true := rfl

/-- C5 (amended): the scheduler aborts without firing exactly when the
shutdown flag is observed after the coarse wait, or the session check fails,
or the form preparation fails, or a cancellation check stops the fine
boundary wait; the price-fill result does not gate firing. -/
theorem schedule_boundary_abort_conditions (env : BoundaryEnv) :
    firesDispatch env = true ↔
      env.activeAfterCoarseWait = true ∧ env.sessionOk = true
        ∧ env.formOk = true ∧ env.fineWait = FineWaitOutcome.crossed := by
  unfold firesDispatch schedule_boundary_order
  rcases env with ⟨a, so, fo, fp, fc, fw, ds⟩
  cases a <;> cases so <;> cases fo <;> cases fw <;> simp

/-- Polling increment of the coarse wait `_wait_until`: `min(0.1, delta)`
seconds, so at most 0.1 s between cancellation checks. -/
def pollInterval : ℚ := 1 / 10

/-- Sleep increment of `interruptible_sleep`: 0.1 s between flag checks. -/
def sleepInterval : ℚ := 1 / 10

/-- `NepseTrader._wait_until`: loop while the clock is before `target`;
each iteration checks the cancellation flags (`refresh_requested`,
`not active`, modelled as `flags now`) and the nonpositive-delta guard, then
sleeps `min(0.1, delta)`.  Time is an exact rational clock advanced by the
slept amount; `fuel` bounds the iteration count; the value returned is the
instant at which the wait returns. -/
def wait_until (flags : ℚ → Bool) (target : ℚ) : Nat → ℚ → ℚ
  | 0, now => now
  | fuel + 1, now =>
    if now < target then
      if flags now = true ∨ target - now ≤ 0 then now
      else wait_until flags target fuel (now + min pollInterval (target - now))
    else now

/-- `NepseTrader.interruptible_sleep`: loop while the slept total is below
`total`; each iteration checks the flags, then sleeps 0.1 s.  The value
returned is the elapsed amount at which the sleep returns. -/
def interruptible_sleep (flags : ℚ → Bool) (total : ℚ) : Nat → ℚ → ℚ
  | 0, slept => slept
  | fuel + 1, slept =>
    if slept < total then
      if flags slept = true then slept
      else interruptible_sleep flags total fuel (slept + sleepInterval)
    else slept

theorem wait_until_stopped (flags : ℚ → Bool) (target : ℚ) (fuel : Nat)
    (now : ℚ) (h : flags now = true) :
    wait_until flags target fuel now = now := by
  cases fuel with
  | zero => rfl
  | succ m =>
    unfold wait_until
    by_cases hlt : now < target
    · simp [hlt, h]
    · simp [hlt]

theorem interruptible_sleep_stopped (flags : ℚ → Bool) (total : ℚ) (fuel : Nat)
    (slept : ℚ) (h : flags slept = true) :
    interruptible_sleep flags total fuel slept = slept := by
  cases fuel with
  | zero => rfl
  | succ m =>
    unfold interruptible_sleep
    by_cases hlt : slept < total
    · simp [hlt, h]
    · simp [hlt]

theorem wait_until_cancel_bound (flags : ℚ → Bool) (target T : ℚ)
    (hT : ∀ t, T ≤ t → flags t = true) :
    ∀ (fuel : Nat) (now : ℚ), now ≤ T →
      wait_until flags target fuel now ≤ T + pollInterval := by
  intro fuel
  induction fuel with
  | zero =>
    intro now hnow
    unfold wait_until
    have : (0 : ℚ) < pollInterval := by norm_num [pollInterval]
    linarith
  | succ m ih =>
    intro now hnow
    unfold wait_until
    by_cases hlt : now < target
    · by_cases hstop : flags now = true ∨ target - now ≤ 0
      · rw [if_pos hlt, if_pos hstop]
        have : (0 : ℚ) < pollInterval := by norm_num [pollInterval]
        linarith
      · rw [if_pos hlt, if_neg hstop]
        by_cases hnext : now + min pollInterval (target - now) ≤ T
        · exact ih _ hnext
        · have hfl : flags (now + min pollInterval (target - now)) = true :=
            hT _ (le_of_not_le hnext)
          rw [wait_until_stopped flags target m _ hfl]
          have hmin : min pollInterval (target - now) ≤ pollInterval :=
            min_le_left _ _
          linarith
    · rw [if_neg hlt]
      have : (0 : ℚ) < pollInterval := by norm_num [pollInterval]
      linarith

theorem interruptible_sleep_cancel_bound (flags : ℚ → Bool) (total T : ℚ)
    (hT : ∀ t, T ≤ t → flags t = true) :
    ∀ (fuel : Nat) (slept : ℚ), slept ≤ T →
      interruptible_sleep flags total fuel slept ≤ T + sleepInterval := by
  intro fuel
  induction fuel with
  | zero =>
    intro slept hs
    unfold interruptible_sleep
    have : (0 : ℚ) < sleepInterval := by norm_num [sleepInterval]
    linarith
  | succ m ih =>
    intro slept hs
    unfold interruptible_sleep
    by_cases hlt : slept < total
    · by_cases hstop : flags slept = true
      · rw [if_pos hlt, if_pos hstop]
        have : (0 : ℚ) < sleepInterval := by norm_num [sleepInterval]
        linarith
      · rw [if_pos hlt, if_neg hstop]
        by_cases hnext : slept + sleepInterval ≤ T
        · exact ih _ hnext
        · have hfl : flags (slept + sleepInterval) = true :=
            hT _ (le_of_not_le hnext)
          rw [interruptible_sleep_stopped flags total m _ hfl]
          linarith
    · rw [if_neg hlt]
      have : (0 : ℚ) < sleepInterval := by norm_num [sleepInterval]
      linarith

/-- C6: when the cancellation flags become (and stay) set from instant `T`
on, a coarse wait that is in progress at `T` returns no later than
`T + pollInterval` — within one polling increment of the cancellation — and
likewise `interruptible_sleep` returns within one sleep increment; both
increments are at most 0.2 s, so no such wait blocks longer than ~200 ms
without re-checking the flags. -/
theorem coarse_wait_cancellation (flags : ℚ → Bool) (target total T : ℚ)
    (fuel : Nat) (start : ℚ)
    (hT : ∀ t, T ≤ t → flags t = true) (hstart : start ≤ T) :
    wait_until flags target fuel start ≤ T + pollInterval
  ∧ interruptible_sleep flags total fuel start ≤ T + sleepInterval
  ∧ pollInterval ≤ 1 / 5 ∧ sleepInterval ≤ 1 / 5 :=
  ⟨wait_until_cancel_bound flags target T hT fuel start hstart,
   interruptible_sleep_cancel_bound flags total T hT fuel start hstart,
   by norm_num [pollInterval], by norm_num [sleepInterval]⟩

/-- Witness for C6: flags set from `T = 1` on, target 3, start 0. -/
theorem coarse_wait_cancellation_witness :
    wait_until (fun t => decide (1 ≤ t)) 3 30 0 ≤ 1 + pollInterval
  ∧ interruptible_sleep (fun t => decide (1 ≤ t)) 3 30 0 ≤ 1 + sleepInterval
  ∧ pollInterval ≤ 1 / 5 ∧ sleepInterval ≤ 1 / 5 :=
  coarse_wait_cancellation (fun t => decide (1 ≤ t)) 3 3 1 30 0
    (fun t ht => decide_eq_true ht) (by norm_num)

end Ganesh
